import Mathlib

/-!
Verification of googleworkspaceadmin3k: paginated listings and wave-dispatched
bulk mutations.

A shallow embedding of `Directory3k.go` and `Licensing3k.go`.

* Go slices are Lean lists (`nil` and the empty slice are both `[]`).
* A remote endpoint is a function of the index of the call (how many calls
  the endpoint has already answered) and of the request; it answers with a
  value or with an error message.
* Loops that may run forever (`for { ... }`, retry by self-recursion) take a
  fuel argument; `Outcome.outOfFuel` / `none` means "has not returned yet".
* A Go run-time panic is the outcome `Outcome.panicked`.
* The goroutines of a wave of `InsertMembers` take steps chosen by a scheduler;
  reading `completedInserts` and storing the appended slice are two steps, so
  that the unsynchronised `append` of the source shows. The goroutines of a wave
  of `DeleteMembers` share no variable and run in an order given as a parameter.
-/

namespace Workspace3k

/-! ## Go library pieces used by the source -/

/-- Does the character list start with the given characters. -/
def startsWithChars : List Char → List Char → Bool
  | _, [] => true
  | [], _ :: _ => false
  | c :: cs, p :: ps => decide (c = p) && startsWithChars cs ps

/-- Substring search on character lists. -/
def containsChars : List Char → List Char → Bool
  | [], sub => sub.isEmpty
  | c :: cs, sub => startsWithChars (c :: cs) sub || containsChars cs sub

/-- Go `strings.Contains(s, substr)`. -/
def stringsContains (s substr : String) : Bool :=
  containsChars s.toList substr.toList

/-! ## Remote replies and run outcomes -/

/-- The answer of one remote call: `(value, nil)` or `(_, err)` with `err.Error() = msg`. -/
inductive Reply (β : Type) where
  | ok (value : β)
  | fail (msg : String)
  deriving DecidableEq, Repr

/-- How a call of a modelled function ends. -/
inductive Outcome (β : Type) where
  | returned (value : β)
  | panicked (msg : String)
  | outOfFuel
  deriving DecidableEq, Repr

/-- Apply a function to the returned value. -/
def Outcome.map {β γ : Type} (f : β → γ) : Outcome β → Outcome γ
  | .returned v => .returned (f v)
  | .panicked msg => .panicked msg
  | .outOfFuel => .outOfFuel

/-- One response of a list endpoint: the items of the page and `NextPageToken`. -/
structure Page (α : Type) where
  items : List α
  nextPageToken : String
  deriving DecidableEq, Repr

/-- A list endpoint with every request parameter but the page token fixed
(domain, query, group, roles, fields, max results): call index and page token
(`""` when the request carries none) give the reply. -/
abbrev ListRemote (α : Type) := Nat → String → Reply (Page α)

/-- What a listing function returns, with the page tokens its fetches carried, in order. -/
structure Listing (α : Type) where
  items : List α
  requests : List String
  deriving DecidableEq, Repr

/-! ## Directory3k.go -/

/-- The fields of `admin.Member` the source reads or writes. -/
structure Member where
  Email : String
  Role : String
  deriving DecidableEq, Repr

/-- Loop of `QueryUsers` (lines 66-78): `request` keeps the page token set by
`request.PageToken`, a fetch error panics. -/
def QueryUsersLoop {α : Type} (remote : ListRemote α) :
    Nat → Nat → String → List α → List String → Outcome (Listing α)
  | 0, _, _, _, _ => .outOfFuel
  | fuel + 1, n, pageToken, userList, reqs =>
    match remote n pageToken with
    | .fail msg => .panicked msg
    | .ok response =>
      let userList := userList ++ response.items
      if response.nextPageToken = "" then
        .returned ⟨userList, reqs ++ [pageToken]⟩
      else
        QueryUsersLoop remote fuel (n + 1) response.nextPageToken userList (reqs ++ [pageToken])

/-- Go `QueryUsers` (lines 63-81): the first request carries no page token. -/
def QueryUsers {α : Type} (remote : ListRemote α) (fuel : Nat) : Outcome (Listing α) :=
  QueryUsersLoop remote fuel 0 "" [] []

/-- Loop of `GetGroups` (lines 105-117). -/
def GetGroupsLoop {α : Type} (remote : ListRemote α) :
    Nat → Nat → String → List α → List String → Outcome (Listing α)
  | 0, _, _, _, _ => .outOfFuel
  | fuel + 1, n, pageToken, groupList, reqs =>
    match remote n pageToken with
    | .fail msg => .panicked msg
    | .ok response =>
      let groupList := groupList ++ response.items
      if response.nextPageToken = "" then
        .returned ⟨groupList, reqs ++ [pageToken]⟩
      else
        GetGroupsLoop remote fuel (n + 1) response.nextPageToken groupList (reqs ++ [pageToken])

/-- Go `GetGroups` (lines 99-119). -/
def GetGroups {α : Type} (remote : ListRemote α) (fuel : Nat) : Outcome (Listing α) :=
  GetGroupsLoop remote fuel 0 "" [] []

/-- Go `GetMembers` (lines 229-253) from call index `n` on, with `members` the
accumulator of the running loop. Every iteration builds a new request
`Members.List(groupEmail)...Do()` that carries no page token. A failure whose
message contains "Quota" returns the result of a fresh `GetMembers` call (a new,
empty `members`); any other failure returns `nil`. -/
def GetMembersLoop (remote : ListRemote Member) :
    Nat → Nat → List Member → List String → Outcome (Listing Member)
  | 0, _, _, _ => .outOfFuel
  | fuel + 1, n, members, reqs =>
    match remote n "" with
    | .fail msg =>
      if stringsContains msg "Quota" then
        GetMembersLoop remote fuel (n + 1) [] (reqs ++ [""])
      else
        .returned ⟨[], reqs ++ [""]⟩
    | .ok request =>
      let members := members ++ request.items
      let nextPageToken := request.nextPageToken
      if nextPageToken = "" then
        .returned ⟨members, reqs ++ [""]⟩
      else
        GetMembersLoop remote fuel (n + 1) members (reqs ++ [""])

/-- Go `GetMembers` called when the endpoint has answered `n` calls. -/
def GetMembers (remote : ListRemote Member) (fuel n : Nat) : Outcome (Listing Member) :=
  GetMembersLoop remote fuel n [] []

/-- The remote `Members.Insert(groupEmail, member).Do()`: call index, group and
member give the inserted member or an error message. -/
abbrev InsertRemote := Nat → String → Member → Reply Member

/-- What one `PushMember` call did: the returned pointer (`nil` is `none`), the
number of remote insert calls and of two-second sleeps it made, retries included. -/
structure PushRun where
  result : Option Member
  calls : Nat
  sleeps : Nat
  deriving DecidableEq, Repr

/-- Go `PushMember` (lines 135-151) called when the endpoint has answered `n` calls.
A "duplicate" failure returns `nil`; any other failure sleeps, calls `PushMember`
again, drops what that call returns and returns `nil`. -/
def PushMember (insert : InsertRemote) : Nat → Nat → String → Member → Option PushRun
  | 0, _, _, _ => none
  | fuel + 1, n, groupEmail, member =>
    match insert n groupEmail member with
    | .fail msg =>
      if stringsContains msg "duplicate" then
        some ⟨none, 1, 0⟩
      else
        match PushMember insert fuel (n + 1) groupEmail member with
        | none => none
        | some retry => some ⟨none, retry.calls + 1, retry.sleeps + 1⟩
    | .ok result => some ⟨some result, 1, 0⟩

/-- The variables of `InsertMembers` with its instrumentation: `waves` lists the
slices `memberList[:maxRoutines]` handed to goroutines, `pushCalls` counts the
`PushMember` invocations, `next` is the call index of the insert endpoint. -/
structure InsertRun where
  completedInserts : List Member
  waves : List (List Member)
  pushCalls : Nat
  next : Nat
  deriving DecidableEq, Repr

/-- Where a goroutine of a wave stands in its body (lines 167-171). -/
inductive Phase where
  | ready
  | pushed
  | loaded (snapshot : List Member)
  | done
  deriving DecidableEq, Repr

/-- One scheduling step of goroutine `i` of a wave. The goroutine does the next
part of its body: call `PushMember` (result ignored); read `completedInserts`
for `append(completedInserts, memberToInsert)`; store the appended slice in
`completedInserts` and call `wg.Done`. The read and the store are separate
steps: the source takes no lock between them. A step of a finished goroutine,
or of an index outside the wave, does nothing. `none` when the `PushMember`
call does not return. -/
def stepGoroutine (insert : InsertRemote) (pushFuel : Nat) (groupEmail : String)
    (wave : List Member) (i : Nat) (st : InsertRun) (phases : Nat → Phase) :
    Option (InsertRun × (Nat → Phase)) :=
  match wave[i]? with
  | none => some (st, phases)
  | some memberToInsert =>
    match phases i with
    | .ready =>
      match PushMember insert pushFuel st.next groupEmail memberToInsert with
      | none => none
      | some run =>
        some ({ st with pushCalls := st.pushCalls + 1, next := st.next + run.calls },
          fun j => if j = i then .pushed else phases j)
    | .pushed =>
      some (st, fun j => if j = i then .loaded st.completedInserts else phases j)
    | .loaded snapshot =>
      some ({ st with completedInserts := snapshot ++ [memberToInsert] },
        fun j => if j = i then .done else phases j)
    | .done => some (st, phases)

/-- The steps of a list of goroutine indices, one after another. -/
def runSteps (insert : InsertRemote) (pushFuel : Nat) (groupEmail : String)
    (wave : List Member) :
    List Nat → InsertRun → (Nat → Phase) → Option (InsertRun × (Nat → Phase))
  | [], st, phases => some (st, phases)
  | i :: rest, st, phases =>
    match stepGoroutine insert pushFuel groupEmail wave i st phases with
    | none => none
    | some (st, phases) => runSteps insert pushFuel groupEmail wave rest st phases

/-- Three steps for each of the goroutines `0 .. n-1`, in index order: what is
left of every goroutine after the scheduled steps is run to its end. -/
def finishing : Nat → List Nat
  | 0 => []
  | n + 1 => finishing n ++ [n, n, n]

/-- The goroutines of one wave (lines 164-174): they are launched, take the
steps `steps` chosen by the scheduler, and `wg.Wait` lets every goroutine run to
its end. With `steps = []` the goroutines run one after another. -/
def insertWave (insert : InsertRemote) (pushFuel : Nat) (groupEmail : String)
    (wave : List Member) (steps : List Nat) (st : InsertRun) : Option InsertRun :=
  match runSteps insert pushFuel groupEmail wave (steps ++ finishing wave.length) st
      (fun _ => .ready) with
  | none => none
  | some (st, _) => some st

/-- Loop of `InsertMembers` (lines 158-180). `schedule k` lists the steps the
scheduler gives to the goroutines of wave `k`. `wg.Add` with a negative count
panics. The clamped `maxRoutines` is kept for the next iteration, as in the
source. -/
def InsertMembersLoop (insert : InsertRemote) (schedule : Nat → List Nat)
    (pushFuel : Nat) (groupEmail : String) :
    Nat → List Member → Int → InsertRun → Outcome InsertRun
  | 0, _, _, _ => .outOfFuel
  | fuel + 1, memberList, maxRoutines, st =>
    let maxRoutines : Int :=
      if (memberList.length : Int) ≤ maxRoutines then (memberList.length : Int) else maxRoutines
    if maxRoutines < 0 then
      .panicked "sync: negative WaitGroup counter"
    else
      let wave := memberList.take maxRoutines.toNat
      match insertWave insert pushFuel groupEmail wave (schedule st.waves.length)
          { st with waves := st.waves ++ [wave] } with
      | none => .outOfFuel
      | some st =>
        let memberList := memberList.drop maxRoutines.toNat
        if memberList.length = 0 then
          .returned st
        else
          InsertMembersLoop insert schedule pushFuel groupEmail fuel memberList maxRoutines st

/-- Go `InsertMembers` (lines 153-183) called when the endpoint has answered `n` calls. -/
def InsertMembers (insert : InsertRemote) (schedule : Nat → List Nat)
    (pushFuel fuel n : Nat) (memberList : List Member) (groupEmail : String)
    (maxRoutines : Int) : Outcome InsertRun :=
  InsertMembersLoop insert schedule pushFuel groupEmail fuel memberList maxRoutines ⟨[], [], 0, n⟩

/-- Number of goroutines among `0 .. n-1` that have not called `PushMember` yet. -/
def readyCount (phases : Nat → Phase) : Nat → Nat
  | 0 => 0
  | n + 1 => readyCount phases n + (if phases n = .ready then 1 else 0)

/-- The remote `Members.Delete(groupEmail, memberEmail).Do()`. -/
abbrev DeleteRemote := Nat → String → String → Reply Unit

/-- What one `DeleteMember` call did: remote delete calls and sleeps, retries included. -/
structure DeleteRun where
  calls : Nat
  sleeps : Nat
  deriving DecidableEq, Repr

/-- Go `DeleteMember` (lines 185-196): any failure sleeps and calls `DeleteMember` again. -/
def DeleteMember (delete : DeleteRemote) : Nat → Nat → String → String → Option DeleteRun
  | 0, _, _, _ => none
  | fuel + 1, n, groupEmail, memberEmail =>
    match delete n groupEmail memberEmail with
    | .fail _ =>
      match DeleteMember delete fuel (n + 1) groupEmail memberEmail with
      | none => none
      | some retry => some ⟨retry.calls + 1, retry.sleeps + 1⟩
    | .ok _ => some ⟨1, 0⟩

/-- The variables of `DeleteMembers` with its instrumentation. -/
structure DeleteMembersRun where
  deleteCounter : Nat
  waves : List (List String)
  deleteCalls : Nat
  next : Nat
  deriving DecidableEq, Repr

/-- The goroutines of one wave of `DeleteMembers` (lines 213-216), run one after
another in the given order. -/
def deleteWave (delete : DeleteRemote) (deleteFuel : Nat) (groupEmail : String) :
    List String → DeleteMembersRun → Option DeleteMembersRun
  | [], st => some st
  | memberToDelete :: rest, st =>
    match DeleteMember delete deleteFuel st.next groupEmail memberToDelete with
    | none => none
    | some run =>
      deleteWave delete deleteFuel groupEmail rest
        { st with deleteCalls := st.deleteCalls + 1, next := st.next + run.calls }

/-- Loop of `DeleteMembers` (lines 203-224); `deleteCounter` is raised once for
each item of the wave while the goroutines are launched. -/
def DeleteMembersLoop (delete : DeleteRemote) (order : List String → List String)
    (deleteFuel : Nat) (groupEmail : String) :
    Nat → List String → Int → DeleteMembersRun → Outcome DeleteMembersRun
  | 0, _, _, _ => .outOfFuel
  | fuel + 1, deleteList, batchSize, st =>
    let batchSize : Int :=
      if (deleteList.length : Int) ≤ batchSize then (deleteList.length : Int) else batchSize
    if batchSize < 0 then
      .panicked "sync: negative WaitGroup counter"
    else
      let wave := deleteList.take batchSize.toNat
      match deleteWave delete deleteFuel groupEmail (order wave)
          { st with waves := st.waves ++ [wave], deleteCounter := st.deleteCounter + wave.length } with
      | none => .outOfFuel
      | some st =>
        let deleteList := deleteList.drop batchSize.toNat
        if deleteList.length = 0 then
          .returned st
        else
          DeleteMembersLoop delete order deleteFuel groupEmail fuel deleteList batchSize st

/-- Go `DeleteMembers` (lines 198-227) called when the endpoint has answered `n` calls. -/
def DeleteMembers (delete : DeleteRemote) (order : List String → List String)
    (deleteFuel fuel n : Nat) (deleteList : List String) (groupEmail : String)
    (batchSize : Int) : Outcome DeleteMembersRun :=
  DeleteMembersLoop delete order deleteFuel groupEmail fuel deleteList batchSize ⟨0, [], 0, n⟩

/-! ## Licensing3k.go -/

/-- The fields of `licensing.LicenseAssignment` the source touches. -/
structure LicenseAssignment where
  ProductId : String
  SkuId : String
  SkuName : String
  UserId : String
  deriving DecidableEq, Repr

/-- Loop of `ListForProduct` (lines 149-176). `response.Items[0]` is read (for
`skuName`, which is only logged) before the emptiness test of line 171, and
indexing an empty slice panics. The item type is left open: no other field of
an item is read. -/
def ListForProductLoop {α : Type} (remote : ListRemote α) :
    Nat → Nat → String → List α → List String → Outcome (Listing α)
  | 0, _, _, _, _ => .outOfFuel
  | fuel + 1, n, pageToken, licenseAssignments, reqs =>
    match remote n pageToken with
    | .fail msg =>
      if stringsContains msg "400" then
        .returned ⟨licenseAssignments, reqs ++ [pageToken]⟩
      else
        .panicked msg
    | .ok response =>
      match response.items with
      | [] => .panicked "index out of range [0] with length 0"
      | _ :: _ =>
        let licenseAssignments := licenseAssignments ++ response.items
        let nextToken := response.nextPageToken
        if nextToken = "" then
          .returned ⟨licenseAssignments, reqs ++ [pageToken]⟩
        else if response.items.length = 0 then
          .returned ⟨licenseAssignments, reqs ++ [pageToken]⟩
        else
          ListForProductLoop remote fuel (n + 1) nextToken licenseAssignments (reqs ++ [pageToken])

/-- Go `ListForProduct` (lines 145-179): the first request carries the empty page token. -/
def ListForProduct {α : Type} (remote : ListRemote α) (fuel : Nat) : Outcome (Listing α) :=
  ListForProductLoop remote fuel 0 "" [] []

/-- Loop of `ListForProductAndSku` (lines 186-213): the emptiness test comes
before `response.Items[0]` is read. -/
def ListForProductAndSkuLoop {α : Type} (remote : ListRemote α) :
    Nat → Nat → String → List α → List String → Outcome (Listing α)
  | 0, _, _, _, _ => .outOfFuel
  | fuel + 1, n, pageToken, licenseAssignments, reqs =>
    match remote n pageToken with
    | .fail msg =>
      if stringsContains msg "400" then
        .returned ⟨licenseAssignments, reqs ++ [pageToken]⟩
      else
        .panicked msg
    | .ok response =>
      if response.items.length = 0 then
        .returned ⟨licenseAssignments, reqs ++ [pageToken]⟩
      else
        let licenseAssignments := licenseAssignments ++ response.items
        let nextToken := response.nextPageToken
        if nextToken = "" then
          .returned ⟨licenseAssignments, reqs ++ [pageToken]⟩
        else
          ListForProductAndSkuLoop remote fuel (n + 1) nextToken licenseAssignments
            (reqs ++ [pageToken])

/-- Go `ListForProductAndSku` (lines 181-217). -/
def ListForProductAndSku {α : Type} (remote : ListRemote α) (fuel : Nat) :
    Outcome (Listing α) :=
  ListForProductAndSkuLoop remote fuel 0 "" [] []

/-! ## Product catalog of Licensing3k.go -/

/-- The custom type `Product` (lines 235-242); a field left out of a literal is
the empty string, as in Go. -/
structure Product where
  ProductID : String := ""
  ProductName : String := ""
  SKUID : String := ""
  SKUName : String := ""
  UnarchivalProductID : String := ""
  UnarchivalSKUID : String := ""
  deriving DecidableEq, Repr

def GoogleWorkspaceBusinessStarter : Product :=
  { ProductID := "Google-Apps", ProductName := "Google Workspace",
    SKUID := "1010020027", SKUName := "Google Workspace Business Starter" }

def GoogleWorkspaceBusinessStandard : Product :=
  { ProductID := "Google-Apps", ProductName := "Google Workspace",
    SKUID := "1010020028", SKUName := "Google Workspace Business Standard" }

def GoogleWorkspaceBusinessPlus : Product :=
  { ProductID := "Google-Apps", ProductName := "Google Workspace",
    SKUID := "1010020025", SKUName := "Google Workspace Business Plus" }

def GoogleWorkspaceEnterpriseEssentials : Product :=
  { ProductID := "Google-Apps", ProductName := "Google Workspace",
    SKUID := "1010060003", SKUName := "Google Workspace Enterprise Essentials" }

def GoogleWorkspaceEnterpriseStandard : Product :=
  { ProductID := "Google-Apps", ProductName := "Google Workspace",
    SKUID := "1010020026", SKUName := "Google Workspace Enterprise Standard" }

def GoogleWorkspaceEnterprisePlus : Product :=
  { ProductID := "Google-Apps", ProductName := "Google Workspace",
    SKUID := "1010020020",
    SKUName := "Google Workspace Enterprise Plus (formerly G Suite Enterprise)" }

def GoogleWorkspaceEssentials : Product :=
  { ProductID := "Google-Apps", ProductName := "Google Workspace",
    SKUID := "1010060001",
    SKUName := "Google Workspace Essentials (formerly G Suite Essentials)" }

def GoogleWorkspaceFrontline : Product :=
  { ProductID := "Google-Apps", ProductName := "Google Workspace",
    SKUID := "1010020030", SKUName := "Google Workspace Frontline" }

def GoogleVault : Product :=
  { ProductID := "Google-Vault", ProductName := "Google Vault",
    SKUID := "Google-Vault", SKUName := "Google Vault" }

def GoogleVaultFormerEmployee : Product :=
  { ProductID := "Google-Vault", ProductName := "Google Vault",
    SKUID := "Google-Vault-Former-Employee", SKUName := "Google Vault - Former Employee" }

def GoogleWorkspaceEnterprisePlusArchivedUser : Product :=
  { ProductID := "101034", ProductName := "Google Workspace Archived User",
    SKUID := "1010340001", SKUName := "Google Workspace Enterprise Plus - Archived User",
    UnarchivalProductID := "Google-Apps", UnarchivalSKUID := "1010020020" }

def GSuiteBusinessArchivedUser : Product :=
  { ProductID := "101034", ProductName := "Google Workspace Archived User",
    SKUID := "1010340002", SKUName := "G Suite Business - Archived User",
    UnarchivalProductID := "Google-Apps", UnarchivalSKUID := "Google-Apps-Unlimited" }

def WorkspaceBusinessPlusArchivedUser : Product :=
  { ProductID := "101034", ProductName := "Google Workspace Archived User",
    SKUID := "1010340003", SKUName := "Google Workspace Business Plus - Archived User",
    UnarchivalProductID := "Google-Apps", UnarchivalSKUID := "1010020025" }

def GoogleWorkspaceEnterpriseStandardArchivedUser : Product :=
  { ProductID := "101034", ProductName := "Google Workspace Archived User",
    SKUID := "1010340004", SKUName := "Google Workspace Enterprise Standard - Archived User",
    UnarchivalProductID := "Google-Apps", UnarchivalSKUID := "1010020026" }

/-- The catalog `AllProducts` (lines 16-31), in source order. -/
def AllProducts : List Product :=
  [ GoogleWorkspaceBusinessStarter,
    GoogleWorkspaceBusinessStandard,
    GoogleWorkspaceBusinessPlus,
    GoogleWorkspaceEnterpriseEssentials,
    GoogleWorkspaceEnterpriseStandard,
    GoogleWorkspaceEnterprisePlus,
    GoogleWorkspaceEssentials,
    GoogleWorkspaceFrontline,
    GoogleVault,
    GoogleVaultFormerEmployee,
    GoogleWorkspaceEnterprisePlusArchivedUser,
    GSuiteBusinessArchivedUser,
    WorkspaceBusinessPlusArchivedUser,
    GoogleWorkspaceEnterpriseStandardArchivedUser ]

/-- The `for ... range` of `GetProductBySKUID` (lines 245-250) over a list of
products: the first product whose `SKUID` is `skuID`, else `Product{}`. -/
def firstBySKUID (skuID : String) : List Product → Product
  | [] => {}
  | product :: rest => if product.SKUID = skuID then product else firstBySKUID skuID rest

/-- Go `GetProductBySKUID` (lines 244-251). -/
def GetProductBySKUID (skuID : String) : Product :=
  firstBySKUID skuID AllProducts

/-- The `for ... range` of `GetProductByName` (lines 254-259) over a list of
products: the first product whose `SKUName` is `skuName`, else `Product{}`. -/
def firstByName (skuName : String) : List Product → Product
  | [] => {}
  | product :: rest => if product.SKUName = skuName then product else firstByName skuName rest

/-- Go `GetProductByName` (lines 253-260). -/
def GetProductByName (skuName : String) : Product :=
  firstByName skuName AllProducts

/-! ## Waves, in the words of the specification -/

/-- The partition the specification describes for `N` items and width `w`:
`ceil(N / w)` waves, wave `k` (from 0) being the consecutive slice that starts at
index `k * w` and has length `min w (N - k * w)`. -/
def specWaves {α : Type} (w : Nat) (l : List α) : List (List α) :=
  (List.range ((l.length + w - 1) / w)).map
    (fun k => (l.drop (k * w)).take (min w (l.length - k * w)))

/-! ## Paginated sources -/

/-- Predicate `Emits remote n tok pages`: from call index `n` on, a client that asks first
with page token `tok` and then with the token of the page it was given last is
served `pages`, one page a call, in order; there is at least one page, the last
page carries the empty token and every page before it a non-empty one. -/
def Emits {α : Type} (remote : ListRemote α) : Nat → String → List (Page α) → Prop
  | _, _, [] => False
  | n, tok, [p] => remote n tok = .ok p ∧ p.nextPageToken = ""
  | n, tok, p :: q :: ps =>
    remote n tok = .ok p ∧ p.nextPageToken ≠ "" ∧ Emits remote (n + 1) p.nextPageToken (q :: ps)

/-- The items of all pages, page after page. -/
def allItems {α : Type} (pages : List (Page α)) : List α :=
  (pages.map (fun p => p.items)).flatten

/-- The page tokens a client sends that starts without a token and follows the
continuation tokens of `pages`: one request for each page. -/
def followedTokens {α : Type} (pages : List (Page α)) : List String :=
  "" :: (pages.dropLast.map (fun p => p.nextPageToken))

/-! ## Concrete inputs -/

def alice : Member := ⟨"a@x", "MEMBER"⟩
def bob : Member := ⟨"b@x", "MEMBER"⟩
def carol : Member := ⟨"c@x", "MEMBER"⟩
def dave : Member := ⟨"d@x", "OWNER"⟩
def erin : Member := ⟨"e@x", "MEMBER"⟩

/-- The three-page source of the specification, keyed by page token. -/
def threePages : ListRemote Member := fun _ tok =>
  if tok = "" then .ok ⟨[alice, bob], "t1"⟩
  else if tok = "t1" then .ok ⟨[carol, dave], "t2"⟩
  else if tok = "t2" then .ok ⟨[erin], ""⟩
  else .fail "invalid page token"

/-- The pages `threePages` serves. -/
def threePagesList : List (Page Member) :=
  [⟨[alice, bob], "t1"⟩, ⟨[carol, dave], "t2"⟩, ⟨[erin], ""⟩]

/-- A member listing whose first fetch succeeds and whose later fetches are
refused: call 0 gives a page with a continuation token, every later call fails
with an error that is no quota error. -/
def forbiddenAfterOne : ListRemote Member := fun n _ =>
  if n = 0 then .ok ⟨[alice, bob], "t1"⟩ else .fail "googleapi: Error 403: Forbidden"

/-- A member listing that meets the quota limit once: call 0 gives a page with a
continuation token, call 1 fails on quota, every later call gives the whole
listing in one page. -/
def quotaOnSecond : ListRemote Member := fun n _ =>
  if n = 0 then .ok ⟨[alice, bob], "t1"⟩
  else if n = 1 then .fail "googleapi: Error 403: Quota exceeded"
  else .ok ⟨[alice, bob, carol], ""⟩

/-- An insert endpoint that refuses every insert as a duplicate. -/
def duplicateInsert : InsertRemote := fun _ _ _ =>
  .fail "googleapi: Error 409: Member already exists., duplicate"

/-- An insert endpoint that fails twice with a backend error and then inserts. -/
def flakyInsert : InsertRemote := fun n _ member =>
  if n < 2 then .fail "googleapi: Error 503: backendError" else .ok member

def seat1 : LicenseAssignment := ⟨"Google-Apps", "1010020027", "Google Workspace Business Starter", "u1@x"⟩
def seat2 : LicenseAssignment := ⟨"Google-Apps", "1010020027", "Google Workspace Business Starter", "u2@x"⟩

/-- A license listing with no assignment at all: the only page has no items
and no token. -/
def noLicenses : ListRemote LicenseAssignment := fun _ _ => .ok ⟨[], ""⟩

/-- A license listing that ends by an empty page carrying a stale token: the
request without token gives one page of two seats and the token "t1", every
other request gives an empty page that still carries "t1". -/
def staleTokenEnd : ListRemote LicenseAssignment := fun _ tok =>
  if tok = "" then .ok ⟨[seat1, seat2], "t1"⟩ else .ok ⟨[], "t1"⟩

/-- An insert endpoint that accepts every insert. -/
def okInsert : InsertRemote := fun _ _ member => .ok member

/-- A delete endpoint that accepts every delete. -/
def okDelete : DeleteRemote := fun _ _ _ => .ok ()

def fiveMembers : List Member := [alice, bob, carol, dave, erin]

def fiveEmails : List String := ["a@x", "b@x", "c@x", "d@x", "e@x"]

/-- A delete endpoint that reports the member as not found on its first two
calls and deletes on the third. -/
def notFoundTwice : DeleteRemote := fun n _ _ =>
  if n < 2 then .fail "googleapi: Error 404: Resource Not Found: memberKey" else .ok ()

/-- A delete endpoint that reports the member as not found on every call. -/
def alwaysNotFound : DeleteRemote := fun _ _ _ =>
  .fail "googleapi: Error 404: Resource Not Found: memberKey"

/-- An insert endpoint that fails every insert with a backend error. -/
def brokenInsert : InsertRemote := fun _ _ _ => .fail "googleapi: Error 503: backendError"

/-- A scheduler under which the first two goroutines of every wave both call
`PushMember` and both read `completedInserts` before either of them stores. -/
def racing : Nat → List Nat := fun _ => [0, 1, 0, 1]

/-- A scheduler that lets the goroutines of every wave run one after another. -/
def serial : Nat → List Nat := fun _ => []

/-! ## Theorems -/

theorem QueryUsersLoop_emits {α : Type} (remote : ListRemote α) (pages : List (Page α)) :
    ∀ (fuel n : Nat) (tok : String) (acc : List α) (reqs : List String),
      Emits remote n tok pages → pages.length ≤ fuel →
      QueryUsersLoop remote fuel n tok acc reqs =
        .returned ⟨acc ++ allItems pages,
          reqs ++ tok :: (pages.dropLast.map (fun p => p.nextPageToken))⟩ := by
  induction pages with
  | nil => intro fuel n tok acc reqs h; exact absurd h (by simp [Emits])
  | cons p ps ih =>
    intro fuel n tok acc reqs h hfuel
    cases fuel with
    | zero => simp at hfuel
    | succ fuel =>
      cases ps with
      | nil =>
        obtain ⟨h1, h2⟩ := h
        simp [QueryUsersLoop, h1, h2, allItems]
      | cons q qs =>
        obtain ⟨h1, h2, h3⟩ := h
        have hlen : (q :: qs).length ≤ fuel := by simpa using hfuel
        simp [QueryUsersLoop, h1, h2, ih fuel (n + 1) _ _ _ h3 hlen, allItems]

theorem GetGroupsLoop_emits {α : Type} (remote : ListRemote α) (pages : List (Page α)) :
    ∀ (fuel n : Nat) (tok : String) (acc : List α) (reqs : List String),
      Emits remote n tok pages → pages.length ≤ fuel →
      GetGroupsLoop remote fuel n tok acc reqs =
        .returned ⟨acc ++ allItems pages,
          reqs ++ tok :: (pages.dropLast.map (fun p => p.nextPageToken))⟩ := by
  induction pages with
  | nil => intro fuel n tok acc reqs h; exact absurd h (by simp [Emits])
  | cons p ps ih =>
    intro fuel n tok acc reqs h hfuel
    cases fuel with
    | zero => simp at hfuel
    | succ fuel =>
      cases ps with
      | nil =>
        obtain ⟨h1, h2⟩ := h
        simp [GetGroupsLoop, h1, h2, allItems]
      | cons q qs =>
        obtain ⟨h1, h2, h3⟩ := h
        have hlen : (q :: qs).length ≤ fuel := by simpa using hfuel
        simp [GetGroupsLoop, h1, h2, ih fuel (n + 1) _ _ _ h3 hlen, allItems]

theorem ListForProductAndSkuLoop_emits {α : Type} (remote : ListRemote α)
    (pages : List (Page α)) :
    ∀ (fuel n : Nat) (tok : String) (acc : List α) (reqs : List String),
      Emits remote n tok pages → (∀ p ∈ pages, p.items ≠ []) → pages.length ≤ fuel →
      ListForProductAndSkuLoop remote fuel n tok acc reqs =
        .returned ⟨acc ++ allItems pages,
          reqs ++ tok :: (pages.dropLast.map (fun p => p.nextPageToken))⟩ := by
  induction pages with
  | nil => intro fuel n tok acc reqs h; exact absurd h (by simp [Emits])
  | cons p ps ih =>
    intro fuel n tok acc reqs h hne hfuel
    have hp : p.items ≠ [] := hne p (by simp)
    cases fuel with
    | zero => simp at hfuel
    | succ fuel =>
      cases ps with
      | nil =>
        obtain ⟨h1, h2⟩ := h
        simp [ListForProductAndSkuLoop, h1, h2, allItems, hp]
      | cons q qs =>
        obtain ⟨h1, h2, h3⟩ := h
        have hlen : (q :: qs).length ≤ fuel := by simpa using hfuel
        have hne2 : ∀ r ∈ q :: qs, r.items ≠ [] := fun r hr => hne r (List.mem_cons_of_mem _ hr)
        simp [ListForProductAndSkuLoop, h1, h2, ih fuel (n + 1) _ _ _ h3 hne2 hlen, allItems, hp]

theorem followedTokens_length {α : Type} (pages : List (Page α)) (h : pages ≠ []) :
    (followedTokens pages).length = pages.length := by
  cases pages with
  | nil => exact absurd rfl h
  | cons p ps => simp [followedTokens]

theorem Emits_ne_nil {α : Type} (remote : ListRemote α) (n : Nat) (tok : String)
    (pages : List (Page α)) (h : Emits remote n tok pages) : pages ≠ [] := by
  intro hnil
  subst hnil
  simp [Emits] at h

/-- C5. Against a source that serves the pages `p1..pk` (k at least 1, every page
with items, a non-empty continuation token on all pages but the last, the empty
token on the last) to a client that follows the continuation tokens, `QueryUsers`,
`GetGroups` and `ListForProductAndSku` each return `p1 ++ ... ++ pk`, send the
tokens `"", t1, ..., t(k-1)` in that order, and so make exactly `k` fetches. -/
theorem pagination_follows_tokens {α : Type} (remote : ListRemote α) (pages : List (Page α))
    (fuel : Nat) (hsrc : Emits remote 0 "" pages) (hitems : ∀ p ∈ pages, p.items ≠ [])
    (hfuel : pages.length ≤ fuel) :
    QueryUsers remote fuel = .returned ⟨allItems pages, followedTokens pages⟩ ∧
    GetGroups remote fuel = .returned ⟨allItems pages, followedTokens pages⟩ ∧
    ListForProductAndSku remote fuel = .returned ⟨allItems pages, followedTokens pages⟩ ∧
    (followedTokens pages).length = pages.length := by
  refine ⟨?_, ?_, ?_, followedTokens_length pages (Emits_ne_nil remote 0 "" pages hsrc)⟩
  · simpa [QueryUsers, followedTokens] using
      QueryUsersLoop_emits remote pages fuel 0 "" [] [] hsrc hfuel
  · simpa [GetGroups, followedTokens] using
      GetGroupsLoop_emits remote pages fuel 0 "" [] [] hsrc hfuel
  · simpa [ListForProductAndSku, followedTokens] using
      ListForProductAndSkuLoop_emits remote pages fuel 0 "" [] [] hsrc hitems hfuel

/-- C5 at the three-page source of the specification. -/
theorem pagination_follows_tokens_witness :
    QueryUsers threePages 3 = .returned ⟨[alice, bob, carol, dave, erin], ["", "t1", "t2"]⟩ ∧
    GetGroups threePages 3 = .returned ⟨[alice, bob, carol, dave, erin], ["", "t1", "t2"]⟩ ∧
    ListForProductAndSku threePages 3 =
      .returned ⟨[alice, bob, carol, dave, erin], ["", "t1", "t2"]⟩ ∧
    (["", "t1", "t2"] : List String).length = 3 :=
  pagination_follows_tokens threePages threePagesList 3
    (by simp [Emits, threePages, threePagesList]) (by simp [threePagesList]) (by decide)

theorem GetMembersLoop_threePages (fuel : Nat) :
    ∀ (n : Nat) (members : List Member) (reqs : List String),
      GetMembersLoop threePages fuel n members reqs = .outOfFuel := by
  induction fuel with
  | zero => intro n members reqs; rfl
  | succ fuel ih =>
    intro n members reqs
    simp [GetMembersLoop, threePages, ih]

/-- C4 (code defect). Against the three-page source of the specification
(`[a,b]` with token t1, `[c,d]` with t2, `[e]` with the empty token), `GetMembers`
has not returned after any number of fetches: no request of its loop carries a
page token, so each fetch is answered with the first page again. -/
theorem GetMembers_threePages_never_returns (fuel : Nat) :
    GetMembers threePages fuel 0 = .outOfFuel :=
  GetMembersLoop_threePages fuel 0 [] []

theorem GetMembersLoop_items_requests (remote : ListRemote Member) (fuel : Nat) :
    ∀ (n : Nat) (members : List Member) (reqs reqs2 : List String),
      (GetMembersLoop remote fuel n members reqs).map (fun r => r.items) =
        (GetMembersLoop remote fuel n members reqs2).map (fun r => r.items) := by
  induction fuel with
  | zero => intro n members reqs reqs2; rfl
  | succ fuel ih =>
    intro n members reqs reqs2
    simp only [GetMembersLoop]
    cases hr : remote n "" with
    | fail msg =>
      by_cases hq : stringsContains msg "Quota" = true
      · simpa [hq] using ih (n + 1) [] _ _
      · simp [hq, Outcome.map]
    | ok request =>
      by_cases ht : request.nextPageToken = ""
      · simp [ht, Outcome.map]
      · simpa [ht] using ih (n + 1) _ _ _

theorem GetMembersLoop_next_page (remote : ListRemote Member) (fuel n : Nat)
    (members : List Member) (reqs : List String) (p : Page Member)
    (hp : remote n "" = .ok p) (htok : p.nextPageToken ≠ "") :
    GetMembersLoop remote (fuel + 1) n members reqs =
      GetMembersLoop remote fuel (n + 1) (members ++ p.items) (reqs ++ [""]) := by
  rw [GetMembersLoop]
  simp [hp, htok]

theorem GetMembersLoop_restart (remote : ListRemote Member) (fuel : Nat) (msg : String)
    (hquota : stringsContains msg "Quota" = true) (j : Nat) :
    ∀ (n : Nat) (members : List Member) (reqs : List String),
      (∀ i, i < j → ∃ p, remote (n + i) "" = .ok p ∧ p.nextPageToken ≠ "") →
      remote (n + j) "" = .fail msg →
      GetMembersLoop remote (fuel + (j + 1)) n members reqs =
        GetMembersLoop remote fuel (n + j + 1) [] (reqs ++ List.replicate (j + 1) "") := by
  induction j with
  | zero =>
    intro n members reqs _ hfail
    simp only [Nat.add_zero] at hfail
    simp [GetMembersLoop, hfail, hquota]
  | succ j ih =>
    intro n members reqs hpre hfail
    obtain ⟨p, hp, htok⟩ := hpre 0 (Nat.succ_pos j)
    simp only [Nat.add_zero] at hp
    have hpre2 : ∀ i, i < j → ∃ q, remote (n + 1 + i) "" = .ok q ∧ q.nextPageToken ≠ "" := by
      intro i hi
      have := hpre (i + 1) (Nat.succ_lt_succ hi)
      simpa [Nat.add_assoc, Nat.add_comm 1 i] using this
    have hfail2 : remote (n + 1 + j) "" = .fail msg := by
      simpa [Nat.add_assoc, Nat.add_comm 1 j] using hfail
    have hstep := ih (n + 1) (members ++ p.items) (reqs ++ [""]) hpre2 hfail2
    have hfuel : fuel + (j + 1 + 1) = (fuel + (j + 1)) + 1 := by omega
    rw [hfuel]
    rw [GetMembersLoop_next_page remote _ n members reqs p hp htok, hstep]
    have hidx : n + 1 + j + 1 = n + (j + 1) + 1 := by omega
    rw [hidx, List.append_assoc]
    rfl

/-- C6. When the first `j` fetches of `GetMembers` succeed without ending the
listing and the next fetch fails with a message containing "Quota", the loop
continues as a fresh listing: whatever `members` had accumulated is dropped and
fetching starts over without a token. So the items `GetMembers` returns are those
of a `GetMembers` call started right after the failure, run for run (the same
list when that call returns, no return when it does not). -/
theorem GetMembers_quota_restart (remote : ListRemote Member) (fuel n j : Nat) (msg : String)
    (hpre : ∀ i, i < j → ∃ p, remote (n + i) "" = .ok p ∧ p.nextPageToken ≠ "")
    (hfail : remote (n + j) "" = .fail msg)
    (hquota : stringsContains msg "Quota" = true) :
    (∀ (members : List Member) (reqs : List String),
      GetMembersLoop remote (fuel + (j + 1)) n members reqs =
        GetMembersLoop remote fuel (n + j + 1) [] (reqs ++ List.replicate (j + 1) "")) ∧
    (GetMembers remote (fuel + (j + 1)) n).map (fun r => r.items) =
      (GetMembers remote fuel (n + j + 1)).map (fun r => r.items) := by
  have h := GetMembersLoop_restart remote fuel msg hquota j n
  refine ⟨fun members reqs => h members reqs hpre hfail, ?_⟩
  unfold GetMembers
  rw [h [] [] hpre hfail]
  exact GetMembersLoop_items_requests remote fuel (n + j + 1) [] _ _

/-- C6 at a listing that fails on quota at its second fetch: the run returns
the listing of the restarted run, without the two items fetched before. -/
theorem GetMembers_quota_restart_witness :
    (GetMembers quotaOnSecond (1 + (1 + 1)) 0).map (fun r => r.items) =
      .returned [alice, bob, carol] ∧
    (GetMembers quotaOnSecond 1 (0 + 1 + 1)).map (fun r => r.items) =
      .returned [alice, bob, carol] :=
  ⟨((GetMembers_quota_restart quotaOnSecond 1 0 1 "googleapi: Error 403: Quota exceeded"
      (by intro i hi
          have hi0 : i = 0 := by omega
          subst hi0
          exact ⟨⟨[alice, bob], "t1"⟩, by decide, by decide⟩)
      (by decide) (by decide)).2).trans (by decide), by decide⟩

/-- C7 (as the code has it). When the first `j` fetches of `GetMembers` succeed
without ending the listing and the next fetch fails with a message that does not
contain "Quota", `GetMembers` returns after these `j + 1` fetches, without a retry,
and what it returns is `nil`: the items of the `j` pages are dropped, and the
function has no error result. -/
theorem GetMembers_other_error_returns_nil (remote : ListRemote Member) (fuel n j : Nat)
    (msg : String)
    (hpre : ∀ i, i < j → ∃ p, remote (n + i) "" = .ok p ∧ p.nextPageToken ≠ "")
    (hfail : remote (n + j) "" = .fail msg)
    (hother : stringsContains msg "Quota" = false) :
    GetMembers remote (fuel + (j + 1)) n = .returned ⟨[], List.replicate (j + 1) ""⟩ := by
  have key : ∀ (j n : Nat) (members : List Member) (reqs : List String),
      (∀ i, i < j → ∃ p, remote (n + i) "" = .ok p ∧ p.nextPageToken ≠ "") →
      remote (n + j) "" = .fail msg →
      GetMembersLoop remote (fuel + (j + 1)) n members reqs =
        .returned ⟨[], reqs ++ List.replicate (j + 1) ""⟩ := by
    intro j
    induction j with
    | zero =>
      intro n members reqs _ hf
      simp only [Nat.add_zero] at hf
      simp [GetMembersLoop, hf, hother]
    | succ j ih =>
      intro n members reqs hp hf
      obtain ⟨p, hp0, htok⟩ := hp 0 (Nat.succ_pos j)
      simp only [Nat.add_zero] at hp0
      have hp2 : ∀ i, i < j → ∃ q, remote (n + 1 + i) "" = .ok q ∧ q.nextPageToken ≠ "" := by
        intro i hi
        have := hp (i + 1) (Nat.succ_lt_succ hi)
        simpa [Nat.add_assoc, Nat.add_comm 1 i] using this
      have hf2 : remote (n + 1 + j) "" = .fail msg := by
        simpa [Nat.add_assoc, Nat.add_comm 1 j] using hf
      have hfuel : fuel + (j + 1 + 1) = (fuel + (j + 1)) + 1 := by omega
      rw [hfuel]
      rw [GetMembersLoop_next_page remote _ n members reqs p hp0 htok,
        ih (n + 1) _ _ hp2 hf2, List.append_assoc]
      rfl
  simpa [GetMembers] using key j n [] [] hpre hfail

/-- C7 at a listing refused after its first page. -/
theorem GetMembers_other_error_returns_nil_witness :
    GetMembers forbiddenAfterOne (0 + (1 + 1)) 0 = .returned ⟨[], ["", ""]⟩ :=
  GetMembers_other_error_returns_nil forbiddenAfterOne 0 0 1 "googleapi: Error 403: Forbidden"
    (by intro i hi
        have hi0 : i = 0 := by omega
        subst hi0
        exact ⟨⟨[alice, bob], "t1"⟩, by decide, by decide⟩)
    (by decide) (by decide)

/-- C7 as stated fails: after one page `[alice, bob]` and a refused second
fetch, `GetMembers` returns `nil`, not the page already fetched. -/
theorem GetMembers_fetched_pages_dropped :
    GetMembers forbiddenAfterOne 2 0 = .returned ⟨[], ["", ""]⟩ ∧
    GetMembers forbiddenAfterOne 2 0 ≠ .returned ⟨[alice, bob], ["", ""]⟩ := by
  decide

/-- C8. When the remote insert fails with a message containing "duplicate",
`PushMember` returns `nil` after that one insert call, without a sleep or a retry. -/
theorem PushMember_duplicate_skipped (insert : InsertRemote) (fuel n : Nat)
    (groupEmail : String) (member : Member) (msg : String)
    (hfail : insert n groupEmail member = .fail msg)
    (hdup : stringsContains msg "duplicate" = true) :
    PushMember insert (fuel + 1) n groupEmail member = some ⟨none, 1, 0⟩ := by
  simp [PushMember, hfail, hdup]

/-- C8 at an endpoint that reports the member as a duplicate. -/
theorem PushMember_duplicate_skipped_witness :
    PushMember duplicateInsert (0 + 1) 0 "staff@x" alice = some ⟨none, 1, 0⟩ :=
  PushMember_duplicate_skipped duplicateInsert 0 0 "staff@x" alice
    "googleapi: Error 409: Member already exists., duplicate" (by rfl) (by decide)

/-- C9 (code defect). Against an insert that fails twice with a backend error
and succeeds on the third call, `PushMember` makes three insert calls and sleeps
twice, but returns `nil`: the retry is a call of `PushMember` whose result is
dropped, followed by `return nil`. -/
theorem PushMember_retry_result_dropped (fuel : Nat) :
    PushMember flakyInsert (fuel + 3) 0 "staff@x" alice = some ⟨none, 3, 2⟩ ∧
    flakyInsert 2 "staff@x" alice = .ok alice := by
  refine ⟨?_, by decide⟩
  simp [PushMember, flakyInsert, stringsContains, containsChars, startsWithChars]

/-- C10 (code defect). On a successfully fetched page without items
`ListForProductAndSku` stops and returns what it has, with an empty token on that
page or a stale one; `ListForProduct` panics there, on `response.Items[0]`. -/
theorem ListForProduct_empty_page_panics (fuel : Nat) :
    ListForProductAndSku noLicenses (fuel + 1) = .returned ⟨[], [""]⟩ ∧
    ListForProduct noLicenses (fuel + 1) = .panicked "index out of range [0] with length 0" ∧
    ListForProductAndSku staleTokenEnd (fuel + 2) = .returned ⟨[seat1, seat2], ["", "t1"]⟩ ∧
    ListForProduct staleTokenEnd (fuel + 2) =
      .panicked "index out of range [0] with length 0" := by
  refine ⟨?_, ?_, ?_, ?_⟩
  · simp [ListForProductAndSku, ListForProductAndSkuLoop, noLicenses]
  · simp [ListForProduct, ListForProductLoop, noLicenses]
  · simp [ListForProductAndSku, ListForProductAndSkuLoop, staleTokenEnd]
  · simp [ListForProduct, ListForProductLoop, staleTokenEnd]

/-! ### Waves -/

theorem ceil_div_of_le (N w : Nat) (hN : 1 ≤ N) (h : N ≤ w) : (N + w - 1) / w = 1 := by
  apply Nat.div_eq_of_lt_le <;> omega

theorem ceil_div_of_gt (N w : Nat) (hw : 1 ≤ w) (h : w < N) :
    (N + w - 1) / w = (N - w + w - 1) / w + 1 := by
  have e : N + w - 1 = (N - w + w - 1) + w := by omega
  rw [e, Nat.add_div_right _ (by omega : 0 < w)]

theorem specWaves_of_le {α : Type} (w : Nat) (l : List α) (hN : 1 ≤ l.length)
    (h : l.length ≤ w) : specWaves w l = [l] := by
  unfold specWaves
  rw [ceil_div_of_le l.length w hN h]
  have hr : List.range 1 = [0] := rfl
  rw [hr]
  simp [h]

theorem specWaves_of_gt {α : Type} (w : Nat) (l : List α) (hw : 1 ≤ w) (h : w < l.length) :
    specWaves w l = l.take w :: specWaves w (l.drop w) := by
  unfold specWaves
  rw [ceil_div_of_gt l.length w hw h, List.range_succ_eq_map]
  simp only [List.map_cons, List.map_map, List.length_drop]
  congr 1
  · simp [Nat.le_of_lt h]
  · apply List.map_congr_left
    intro k _
    simp only [Function.comp, List.drop_drop]
    have e1 : k.succ * w = w + k * w := by rw [Nat.succ_mul, Nat.add_comm]
    have e2 : l.length - (w + k * w) = l.length - w - k * w := by omega
    rw [e1, e2]

theorem specWaves_flatten {α : Type} (w : Nat) (hw : 1 ≤ w) :
    ∀ (N : Nat) (l : List α), l.length = N → 1 ≤ N → (specWaves w l).flatten = l := by
  intro N
  induction N using Nat.strong_induction_on with
  | _ N ih =>
    intro l hl hN
    by_cases h : l.length ≤ w
    · rw [specWaves_of_le w l (by omega) h]; simp
    · have hgt : w < l.length := by omega
      rw [specWaves_of_gt w l hw hgt, List.flatten_cons,
        ih (N - w) (by omega) (l.drop w) (by simp [hl]) (by omega)]
      exact List.take_append_drop w l

theorem specWaves_length_le {α : Type} (w : Nat) (l : List α) :
    ∀ wave ∈ specWaves w l, wave.length ≤ w := by
  intro wave hwave
  simp only [specWaves, List.mem_map] at hwave
  obtain ⟨k, _, rfl⟩ := hwave
  rw [List.length_take]
  omega

theorem specWaves_length {α : Type} (w : Nat) (l : List α) :
    (specWaves w l).length = (l.length + w - 1) / w := by
  simp [specWaves]

theorem deleteWave_runs (delete : DeleteRemote) (deleteFuel : Nat) (groupEmail : String) :
    ∀ (ms : List String) (st : DeleteMembersRun),
      (∀ m ∈ ms, ∀ k, (DeleteMember delete deleteFuel k groupEmail m).isSome = true) →
      ∃ out, deleteWave delete deleteFuel groupEmail ms st = some out ∧
        out.deleteCounter = st.deleteCounter ∧ out.waves = st.waves ∧
        out.deleteCalls = st.deleteCalls + ms.length := by
  intro ms
  induction ms with
  | nil => intro st _; exact ⟨st, rfl, rfl, rfl, rfl⟩
  | cons m ms ih =>
    intro st h
    have hm := h m (by simp) st.next
    obtain ⟨run, hrun⟩ := Option.isSome_iff_exists.mp hm
    obtain ⟨out, h1, h2, h3, h4⟩ :=
      ih { st with deleteCalls := st.deleteCalls + 1, next := st.next + run.calls }
        (fun x hx => h x (List.mem_cons_of_mem _ hx))
    refine ⟨out, ?_, ?_, ?_, ?_⟩
    · simp only [deleteWave, hrun]; exact h1
    · simpa using h2
    · simpa using h3
    · simp only [List.length_cons]; rw [h4]; simp only []; omega

theorem ceil_div_pos (N w : Nat) (hw : 1 ≤ w) (hN : 1 ≤ N) : 1 ≤ (N + w - 1) / w :=
  Nat.div_pos (by omega) (by omega)

theorem DeleteMembersLoop_waves (delete : DeleteRemote) (order : List String → List String)
    (deleteFuel : Nat) (groupEmail : String) (w : Nat) (hw : 1 ≤ w)
    (horder : ∀ l, (order l).Perm l) :
    ∀ (fuel : Nat) (l : List String) (st : DeleteMembersRun),
      1 ≤ l.length → (l.length + w - 1) / w ≤ fuel →
      (∀ m ∈ l, ∀ k, (DeleteMember delete deleteFuel k groupEmail m).isSome = true) →
      ∃ out, DeleteMembersLoop delete order deleteFuel groupEmail fuel l (w : Int) st =
          .returned out ∧
        out.waves = st.waves ++ specWaves w l ∧
        out.deleteCounter = st.deleteCounter + l.length ∧
        out.deleteCalls = st.deleteCalls + l.length := by
  intro fuel
  induction fuel with
  | zero =>
    intro l st hN hfuel
    have := ceil_div_pos l.length w hw hN
    omega
  | succ fuel ih =>
    intro l st hN hfuel hdel
    by_cases h : l.length ≤ w
    · obtain ⟨out, h1, h2, h3, h4⟩ :=
        deleteWave_runs delete deleteFuel groupEmail (order l)
          { st with waves := st.waves ++ [l], deleteCounter := st.deleteCounter + l.length }
          (fun m hm => hdel m ((horder l).mem_iff.mp hm))
      refine ⟨out, ?_, ?_, ?_, ?_⟩
      · rw [DeleteMembersLoop]
        simp [h, h1]
      · rw [h3, specWaves_of_le w l hN h]
      · rw [h2]
      · rw [h4, (horder l).length_eq]
    · have hgt : w < l.length := by omega
      obtain ⟨mid, m1, m2, m3, m4⟩ :=
        deleteWave_runs delete deleteFuel groupEmail (order (l.take w))
          { st with
            waves := st.waves ++ [l.take w]
            deleteCounter := st.deleteCounter + (l.take w).length }
          (fun m hm => hdel m (List.mem_of_mem_take ((horder (l.take w)).mem_iff.mp hm)))
      have hlen : (l.drop w).length = l.length - w := List.length_drop w l
      have hfuel2 : ((l.drop w).length + w - 1) / w ≤ fuel := by
        have := ceil_div_of_gt l.length w hw hgt
        rw [hlen]; omega
      obtain ⟨out, o1, o2, o3, o4⟩ :=
        ih (l.drop w) mid (by omega) hfuel2 (fun m hm => hdel m (List.mem_of_mem_drop hm))
      have hnn : ¬ ((w : Int) < 0) := by omega
      have hsub : l.length - w ≠ 0 := by omega
      refine ⟨out, ?_, ?_, ?_, ?_⟩
      · rw [DeleteMembersLoop]
        simp only [List.length_take] at m1
        simp [h, m1, hnn, hsub]
        exact o1
      · rw [o2, m3, specWaves_of_gt w l hw hgt]; simp
      · rw [o3, m2, hlen, List.length_take]
        simp only []
        omega
      · rw [o4, m4, (horder (l.take w)).length_eq, hlen, List.length_take]
        simp only []
        omega

/-! ### Goroutines of a wave of `InsertMembers` -/

theorem readyCount_congr (ph ph2 : Nat → Phase) :
    ∀ n : Nat, (∀ j, j < n → (ph2 j = .ready ↔ ph j = .ready)) →
      readyCount ph2 n = readyCount ph n := by
  intro n
  induction n with
  | zero => intro _; rfl
  | succ n ih =>
    intro h
    have h1 := ih (fun j hj => h j (Nat.lt_succ_of_lt hj))
    have h2 := h n (Nat.lt_succ_self n)
    simp only [readyCount, h1]
    by_cases hr : ph n = .ready
    · simp [hr, h2.mpr hr]
    · have : ph2 n ≠ .ready := fun hc => hr (h2.mp hc)
      simp [hr, this]

theorem readyCount_start (ph : Nat → Phase) (i : Nat) (p : Phase) (hp : p ≠ .ready)
    (hi : ph i = .ready) :
    ∀ n : Nat, i < n →
      readyCount (fun j => if j = i then p else ph j) n + 1 = readyCount ph n := by
  intro n
  induction n with
  | zero => intro h; omega
  | succ n ih =>
    intro h
    by_cases hin : i = n
    · subst hin
      have hsame : readyCount (fun j => if j = i then p else ph j) i = readyCount ph i := by
        apply readyCount_congr
        intro j hj
        have : j ≠ i := by omega
        simp [this]
      simp [readyCount, hsame, hi, hp]
    · have hlt : i < n := by omega
      have hne : n ≠ i := fun hc => hin hc.symm
      have := ih hlt
      simp only [readyCount, hne, if_false]
      omega

theorem readyCount_all_ready : ∀ n : Nat, readyCount (fun _ => Phase.ready) n = n := by
  intro n
  induction n with
  | zero => rfl
  | succ n ih => simp [readyCount, ih]

theorem readyCount_none_ready (ph : Nat → Phase) :
    ∀ n : Nat, (∀ j, j < n → ph j ≠ .ready) → readyCount ph n = 0 := by
  intro n
  induction n with
  | zero => intro _; rfl
  | succ n ih =>
    intro h
    simp [readyCount, ih (fun j hj => h j (Nat.lt_succ_of_lt hj)), h n (Nat.lt_succ_self n)]

theorem stepGoroutine_inv (insert : InsertRemote) (pushFuel : Nat) (groupEmail : String)
    (wave : List Member)
    (hpush : ∀ m ∈ wave, ∀ k, (PushMember insert pushFuel k groupEmail m).isSome = true)
    (i : Nat) (st : InsertRun) (ph : Nat → Phase) :
    ∃ st2 ph2, stepGoroutine insert pushFuel groupEmail wave i st ph = some (st2, ph2) ∧
      st2.waves = st.waves ∧
      st2.pushCalls + readyCount ph2 wave.length = st.pushCalls + readyCount ph wave.length ∧
      (∀ j, ph j ≠ .ready → ph2 j ≠ .ready) ∧
      (i < wave.length → ph2 i ≠ .ready) := by
  unfold stepGoroutine
  cases hw : wave[i]? with
  | none =>
    refine ⟨st, ph, rfl, rfl, rfl, fun _ h => h, ?_⟩
    intro hi
    have := List.getElem?_eq_none_iff.mp hw
    omega
  | some m =>
    have hi : i < wave.length := by
      rcases List.getElem?_eq_some_iff.mp hw with ⟨h, _⟩
      exact h
    have hm : m ∈ wave := List.mem_iff_getElem?.mpr ⟨i, hw⟩
    cases hph : ph i with
    | ready =>
      obtain ⟨run, hrun⟩ := Option.isSome_iff_exists.mp (hpush m hm st.next)
      refine ⟨{ st with pushCalls := st.pushCalls + 1, next := st.next + run.calls },
        fun j => if j = i then .pushed else ph j, by simp only [hrun], rfl, ?_, ?_, ?_⟩
      · have := readyCount_start ph i .pushed (by simp) hph wave.length hi
        simp only []
        omega
      · intro j hj
        by_cases hji : j = i
        · simp [hji]
        · simpa [hji] using hj
      · intro _; simp
    | pushed =>
      refine ⟨st, fun j => if j = i then .loaded st.completedInserts else ph j,
        rfl, rfl, ?_, ?_, ?_⟩
      · congr 1
        apply readyCount_congr
        intro j _
        by_cases hji : j = i
        · subst hji; simp [hph]
        · simp [hji]
      · intro j hj
        by_cases hji : j = i
        · simp [hji]
        · simpa [hji] using hj
      · intro _; simp
    | loaded snapshot =>
      refine ⟨{ st with completedInserts := snapshot ++ [m] },
        fun j => if j = i then .done else ph j, rfl, rfl, ?_, ?_, ?_⟩
      · simp only []
        congr 1
        apply readyCount_congr
        intro j _
        by_cases hji : j = i
        · subst hji; simp [hph]
        · simp [hji]
      · intro j hj
        by_cases hji : j = i
        · simp [hji]
        · simpa [hji] using hj
      · intro _; simp
    | done =>
      refine ⟨st, ph, rfl, rfl, rfl, fun _ h => h, ?_⟩
      intro _; simp [hph]

theorem runSteps_inv (insert : InsertRemote) (pushFuel : Nat) (groupEmail : String)
    (wave : List Member)
    (hpush : ∀ m ∈ wave, ∀ k, (PushMember insert pushFuel k groupEmail m).isSome = true) :
    ∀ (l : List Nat) (st : InsertRun) (ph : Nat → Phase),
      ∃ st2 ph2, runSteps insert pushFuel groupEmail wave l st ph = some (st2, ph2) ∧
        st2.waves = st.waves ∧
        st2.pushCalls + readyCount ph2 wave.length = st.pushCalls + readyCount ph wave.length ∧
        (∀ j, ph j ≠ .ready → ph2 j ≠ .ready) ∧
        (∀ j ∈ l, j < wave.length → ph2 j ≠ .ready) := by
  intro l
  induction l with
  | nil =>
    intro st ph
    exact ⟨st, ph, rfl, rfl, rfl, fun _ h => h, by simp⟩
  | cons i rest ih =>
    intro st ph
    obtain ⟨st1, ph1, e1, w1, c1, m1, s1⟩ :=
      stepGoroutine_inv insert pushFuel groupEmail wave hpush i st ph
    obtain ⟨st2, ph2, e2, w2, c2, m2, s2⟩ := ih st1 ph1
    refine ⟨st2, ph2, ?_, w2.trans w1, c2.trans c1, fun j hj => m2 j (m1 j hj), ?_⟩
    · simp only [runSteps, e1]; exact e2
    · intro j hj hlt
      rcases List.mem_cons.mp hj with hji | hjr
      · subst hji; exact m2 j (s1 hlt)
      · exact s2 j hjr hlt

theorem mem_finishing : ∀ n j : Nat, j < n → j ∈ finishing n := by
  intro n
  induction n with
  | zero => intro j h; omega
  | succ n ih =>
    intro j h
    by_cases hjn : j = n
    · subst hjn; simp [finishing]
    · have := ih j (by omega)
      simp [finishing, this]

theorem insertWave_runs (insert : InsertRemote) (pushFuel : Nat) (groupEmail : String)
    (wave : List Member) (steps : List Nat) (st : InsertRun)
    (hpush : ∀ m ∈ wave, ∀ k, (PushMember insert pushFuel k groupEmail m).isSome = true) :
    ∃ out, insertWave insert pushFuel groupEmail wave steps st = some out ∧
      out.waves = st.waves ∧ out.pushCalls = st.pushCalls + wave.length := by
  obtain ⟨st2, ph2, e, w, c, _, s⟩ :=
    runSteps_inv insert pushFuel groupEmail wave hpush (steps ++ finishing wave.length) st
      (fun _ => .ready)
  refine ⟨st2, ?_, w, ?_⟩
  · simp only [insertWave, e]
  · have hnone : readyCount ph2 wave.length = 0 :=
      readyCount_none_ready ph2 wave.length
        (fun j hj => s j (List.mem_append_right _ (mem_finishing wave.length j hj)) hj)
    rw [hnone, readyCount_all_ready] at c
    simpa using c

theorem runSteps_empty_wave (insert : InsertRemote) (pushFuel : Nat) (groupEmail : String) :
    ∀ (l : List Nat) (st : InsertRun) (ph : Nat → Phase),
      runSteps insert pushFuel groupEmail [] l st ph = some (st, ph) := by
  intro l
  induction l with
  | nil => intro st ph; rfl
  | cons i rest ih =>
    intro st ph
    simp [runSteps, stepGoroutine, ih]

theorem PushMember_brokenInsert (groupEmail : String) (member : Member) (fuel : Nat) :
    ∀ n : Nat, PushMember brokenInsert fuel n groupEmail member = none := by
  induction fuel with
  | zero => intro n; rfl
  | succ fuel ih =>
    intro n
    have hmsg : stringsContains "googleapi: Error 503: backendError" "duplicate" = false := by
      decide
    rw [PushMember]
    simp [brokenInsert, hmsg, ih (n + 1)]

theorem InsertMembersLoop_waves (insert : InsertRemote) (schedule : Nat → List Nat)
    (pushFuel : Nat) (groupEmail : String) (w : Nat) (hw : 1 ≤ w) :
    ∀ (fuel : Nat) (l : List Member) (st : InsertRun),
      1 ≤ l.length → (l.length + w - 1) / w ≤ fuel →
      (∀ m ∈ l, ∀ k, (PushMember insert pushFuel k groupEmail m).isSome = true) →
      ∃ out, InsertMembersLoop insert schedule pushFuel groupEmail fuel l (w : Int) st =
          .returned out ∧
        out.waves = st.waves ++ specWaves w l ∧
        out.pushCalls = st.pushCalls + l.length := by
  intro fuel
  induction fuel with
  | zero =>
    intro l st hN hfuel
    have := ceil_div_pos l.length w hw hN
    omega
  | succ fuel ih =>
    intro l st hN hfuel hpush
    by_cases h : l.length ≤ w
    · obtain ⟨out, h1, h3, h4⟩ :=
        insertWave_runs insert pushFuel groupEmail l (schedule st.waves.length)
          { st with waves := st.waves ++ [l] } hpush
      refine ⟨out, ?_, ?_, ?_⟩
      · rw [InsertMembersLoop]
        simp [h, h1]
      · rw [h3, specWaves_of_le w l hN h]
      · rw [h4]
    · have hgt : w < l.length := by omega
      obtain ⟨mid, m1, m3, m4⟩ :=
        insertWave_runs insert pushFuel groupEmail (l.take w) (schedule st.waves.length)
          { st with waves := st.waves ++ [l.take w] }
          (fun m hm => hpush m (List.mem_of_mem_take hm))
      have hlen : (l.drop w).length = l.length - w := List.length_drop w l
      have hfuel2 : ((l.drop w).length + w - 1) / w ≤ fuel := by
        have := ceil_div_of_gt l.length w hw hgt
        rw [hlen]; omega
      obtain ⟨out, o1, o2, o4⟩ :=
        ih (l.drop w) mid (by omega) hfuel2 (fun m hm => hpush m (List.mem_of_mem_drop hm))
      have hnn : ¬ ((w : Int) < 0) := by omega
      have hsub : l.length - w ≠ 0 := by omega
      refine ⟨out, ?_, ?_, ?_⟩
      · rw [InsertMembersLoop]
        simp [h, m1, hnn, hsub]
        exact o1
      · rw [o2, m3, specWaves_of_gt w l hw hgt]; simp
      · rw [o4, m4, hlen, List.length_take]
        simp only []
        omega

/-- C1 (code defect). Five members inserted with width 2: when the goroutines of
a wave run one after another, `InsertMembers` returns all five members; when the
two goroutines of a wave both read `completedInserts` before either stores its
appended slice, the first store is overwritten, and `InsertMembers` returns three
members although `PushMember` was called for all five. The source appends to the
shared slice from the goroutines without a lock. -/
theorem InsertMembers_unlocked_append_loses_members :
    InsertMembers okInsert serial 1 3 0 fiveMembers "staff@x" 2 =
      .returned ⟨[alice, bob, carol, dave, erin], [[alice, bob], [carol, dave], [erin]], 5, 5⟩ ∧
    InsertMembers okInsert racing 1 3 0 fiveMembers "staff@x" 2 =
      .returned ⟨[bob, dave, erin], [[alice, bob], [carol, dave], [erin]], 5, 5⟩ := by
  constructor <;> decide

/-- C2 (as the code has it). For `N ≥ 1` items and a width `w ≥ 1`, when every
worker call returns, the loops of `InsertMembers` and of `DeleteMembers` return,
under every scheduling of the goroutines, and the waves they dispatched are those
of the specification: `ceil(N / w)` waves, wave `k` the slice at index `k * w` of
length `min w (N - k * w)`; joined in dispatch order they give the input list, no
wave has more than `w` items, and the worker was called once for each item. -/
theorem wave_loops_partition (insert : InsertRemote) (delete : DeleteRemote)
    (schedule : Nat → List Nat) (orderS : List String → List String)
    (pushFuel deleteFuel fuel n : Nat) (memberList : List Member) (deleteList : List String)
    (groupEmail : String) (w : Nat) (hw : 1 ≤ w)
    (hN : 1 ≤ memberList.length) (hD : 1 ≤ deleteList.length)
    (horderS : ∀ l, (orderS l).Perm l)
    (hpush : ∀ m ∈ memberList, ∀ k, (PushMember insert pushFuel k groupEmail m).isSome = true)
    (hdel : ∀ m ∈ deleteList, ∀ k,
      (DeleteMember delete deleteFuel k groupEmail m).isSome = true)
    (hfuelM : (memberList.length + w - 1) / w ≤ fuel)
    (hfuelD : (deleteList.length + w - 1) / w ≤ fuel) :
    (∃ out, InsertMembers insert schedule pushFuel fuel n memberList groupEmail (w : Int) =
        .returned out ∧
      out.waves = specWaves w memberList ∧
      out.waves.length = (memberList.length + w - 1) / w ∧
      out.waves.flatten = memberList ∧
      (∀ wave ∈ out.waves, wave.length ≤ w) ∧
      out.pushCalls = memberList.length) ∧
    (∃ out, DeleteMembers delete orderS deleteFuel fuel n deleteList groupEmail (w : Int) =
        .returned out ∧
      out.waves = specWaves w deleteList ∧
      out.waves.length = (deleteList.length + w - 1) / w ∧
      out.waves.flatten = deleteList ∧
      (∀ wave ∈ out.waves, wave.length ≤ w) ∧
      out.deleteCalls = deleteList.length ∧
      out.deleteCounter = deleteList.length) := by
  constructor
  · obtain ⟨out, h1, h2, h3⟩ :=
      InsertMembersLoop_waves insert schedule pushFuel groupEmail w hw fuel memberList
        ⟨[], [], 0, n⟩ hN hfuelM hpush
    have hwaves : out.waves = specWaves w memberList := by simpa using h2
    refine ⟨out, h1, hwaves, ?_, ?_, ?_, by simpa using h3⟩
    · rw [hwaves, specWaves_length]
    · rw [hwaves, specWaves_flatten w hw memberList.length memberList rfl hN]
    · rw [hwaves]; exact specWaves_length_le w memberList
  · obtain ⟨out, h1, h2, h3, h4⟩ :=
      DeleteMembersLoop_waves delete orderS deleteFuel groupEmail w hw horderS fuel deleteList
        ⟨0, [], 0, n⟩ hD hfuelD hdel
    have hwaves : out.waves = specWaves w deleteList := by simpa using h2
    refine ⟨out, h1, hwaves, ?_, ?_, ?_, by simpa using h4, by simpa using h3⟩
    · rw [hwaves, specWaves_length]
    · rw [hwaves, specWaves_flatten w hw deleteList.length deleteList rfl hD]
    · rw [hwaves]; exact specWaves_length_le w deleteList

/-- C2 at five items and width 2: three waves, of 2, 2 and 1 items, under a
scheduler that interleaves the goroutines of a wave. -/
theorem wave_loops_partition_witness :
    (∃ out, InsertMembers okInsert racing 1 3 0 fiveMembers "staff@x" ((2 : Nat) : Int) =
        .returned out ∧
      out.waves = specWaves 2 fiveMembers ∧
      out.waves.length = (fiveMembers.length + 2 - 1) / 2 ∧
      out.waves.flatten = fiveMembers ∧
      (∀ wave ∈ out.waves, wave.length ≤ 2) ∧
      out.pushCalls = fiveMembers.length) ∧
    (∃ out, DeleteMembers okDelete List.reverse 1 3 0 fiveEmails "staff@x" ((2 : Nat) : Int) =
        .returned out ∧
      out.waves = specWaves 2 fiveEmails ∧
      out.waves.length = (fiveEmails.length + 2 - 1) / 2 ∧
      out.waves.flatten = fiveEmails ∧
      (∀ wave ∈ out.waves, wave.length ≤ 2) ∧
      out.deleteCalls = fiveEmails.length ∧
      out.deleteCounter = fiveEmails.length) :=
  wave_loops_partition okInsert okDelete racing List.reverse 1 1 3 0 fiveMembers
    fiveEmails "staff@x" 2 (by decide) (by decide) (by decide)
    (fun l => List.reverse_perm l)
    (fun _ _ _ => rfl) (fun _ _ _ => rfl) (by decide) (by decide)

/-- C3 (as the code has it). For every width `w ≥ 0`, `InsertMembers` on an empty
member list returns an empty collection without a `PushMember` call or a remote
call, under every scheduling, and `DeleteMembers` on an empty delete list returns
without a `DeleteMember` call or a remote call: one wave of no items is
dispatched. -/
theorem empty_batch_returns (insert : InsertRemote) (delete : DeleteRemote)
    (schedule : Nat → List Nat) (orderS : List String → List String)
    (pushFuel deleteFuel fuel n : Nat) (groupEmail : String) (w : Int) (hw : 0 ≤ w)
    (horderS : ∀ l, (orderS l).Perm l) :
    InsertMembers insert schedule pushFuel (fuel + 1) n [] groupEmail w =
      .returned ⟨[], [[]], 0, n⟩ ∧
    DeleteMembers delete orderS deleteFuel (fuel + 1) n [] groupEmail w =
      .returned ⟨0, [[]], 0, n⟩ := by
  have hS : orderS [] = [] := List.perm_nil.mp (horderS [])
  constructor
  · simp [InsertMembers, InsertMembersLoop, hw, insertWave, finishing, runSteps_empty_wave]
  · simp [DeleteMembers, DeleteMembersLoop, hw, hS, deleteWave]

/-- C3 at width 0. -/
theorem empty_batch_returns_witness :
    InsertMembers okInsert racing 1 (0 + 1) 0 [] "staff@x" 0 =
      .returned ⟨[], [[]], 0, 0⟩ ∧
    DeleteMembers okDelete List.reverse 1 (0 + 1) 0 [] "staff@x" 0 =
      .returned ⟨0, [[]], 0, 0⟩ :=
  empty_batch_returns okInsert okDelete racing List.reverse 1 1 0 0 "staff@x" 0
    (by decide) (fun l => List.reverse_perm l)

/-- C3 as stated fails for a negative width: with an empty list and width -1
both functions panic on `wg.Add(-1)`. -/
theorem empty_batch_negative_width_panics :
    InsertMembers okInsert serial 1 1 0 [] "staff@x" (-1) =
      .panicked "sync: negative WaitGroup counter" ∧
    DeleteMembers okDelete List.reverse 1 1 0 [] "staff@x" (-1) =
      .panicked "sync: negative WaitGroup counter" := by
  constructor <;> rfl

/-! ### Retrying deletes -/

theorem DeleteMember_succeeds_after (delete : DeleteRemote) (fuel : Nat) (groupEmail : String)
    (memberEmail : String) (k : Nat) :
    ∀ n : Nat,
      (∀ i, i < k → ∃ msg, delete (n + i) groupEmail memberEmail = .fail msg) →
      delete (n + k) groupEmail memberEmail = .ok () →
      DeleteMember delete (fuel + (k + 1)) n groupEmail memberEmail = some ⟨k + 1, k⟩ := by
  induction k with
  | zero =>
    intro n _ hok
    simp only [Nat.add_zero] at hok
    simp [DeleteMember, hok]
  | succ k ih =>
    intro n hpre hok
    obtain ⟨msg, hmsg⟩ := hpre 0 (Nat.succ_pos k)
    simp only [Nat.add_zero] at hmsg
    have hpre2 : ∀ i, i < k → ∃ e, delete (n + 1 + i) groupEmail memberEmail = .fail e := by
      intro i hi
      have := hpre (i + 1) (Nat.succ_lt_succ hi)
      simpa [Nat.add_assoc, Nat.add_comm 1 i] using this
    have hok2 : delete (n + 1 + k) groupEmail memberEmail = .ok () := by
      simpa [Nat.add_assoc, Nat.add_comm 1 k] using hok
    have hfuel : fuel + (k + 1 + 1) = (fuel + (k + 1)) + 1 := by omega
    rw [hfuel, DeleteMember]
    simp [hmsg, ih (n + 1) hpre2 hok2]

theorem DeleteMember_never_succeeds (delete : DeleteRemote) (groupEmail : String)
    (memberEmail : String) (fuel : Nat) :
    ∀ n : Nat,
      (∀ i, ∃ msg, delete (n + i) groupEmail memberEmail = .fail msg) →
      DeleteMember delete fuel n groupEmail memberEmail = none := by
  induction fuel with
  | zero => intro n _; rfl
  | succ fuel ih =>
    intro n hall
    obtain ⟨msg, hmsg⟩ := hall 0
    simp only [Nat.add_zero] at hmsg
    have hall2 : ∀ i, ∃ e, delete (n + 1 + i) groupEmail memberEmail = .fail e := by
      intro i
      have := hall (i + 1)
      simpa [Nat.add_assoc, Nat.add_comm 1 i] using this
    rw [DeleteMember]
    simp [hmsg, ih (n + 1) hall2]

/-- C11. When the remote delete fails on the first `k` attempts, with whatever
error message (a not-found one included), and succeeds on attempt `k + 1`,
`DeleteMember` returns after exactly `k + 1` remote delete calls (and `k` sleeps);
and when the remote delete fails on every attempt, `DeleteMember` has not returned
after any number of attempts: no error ends the retrying. -/
theorem DeleteMember_retries_every_error (delete : DeleteRemote) (n : Nat)
    (groupEmail memberEmail : String) :
    (∀ k fuel : Nat,
      (∀ i, i < k → ∃ msg, delete (n + i) groupEmail memberEmail = .fail msg) →
      delete (n + k) groupEmail memberEmail = .ok () →
      DeleteMember delete (fuel + (k + 1)) n groupEmail memberEmail = some ⟨k + 1, k⟩) ∧
    ((∀ i, ∃ msg, delete (n + i) groupEmail memberEmail = .fail msg) →
      ∀ fuel : Nat, DeleteMember delete fuel n groupEmail memberEmail = none) :=
  ⟨fun k fuel hpre hok =>
      DeleteMember_succeeds_after delete fuel groupEmail memberEmail k n hpre hok,
    fun hall fuel => DeleteMember_never_succeeds delete groupEmail memberEmail fuel n hall⟩

/-- C11 at a member reported as not found twice and then deleted, and at a
member reported as not found on every attempt. -/
theorem DeleteMember_retries_every_error_witness :
    DeleteMember notFoundTwice (0 + (2 + 1)) 0 "staff@x" "a@x" = some ⟨2 + 1, 2⟩ ∧
    DeleteMember alwaysNotFound 1000 0 "staff@x" "a@x" = none :=
  ⟨(DeleteMember_retries_every_error notFoundTwice 0 "staff@x" "a@x").1 2 0
      (fun i hi =>
        ⟨"googleapi: Error 404: Resource Not Found: memberKey", by
          simp only [notFoundTwice]
          rw [if_pos (by omega)]⟩)
      (by decide),
    (DeleteMember_retries_every_error alwaysNotFound 0 "staff@x" "a@x").2
      (fun _ => ⟨"googleapi: Error 404: Resource Not Found: memberKey", rfl⟩) 1000⟩

/-! ### Waves blocked by a worker that never returns -/

/-- C2 as stated fails: the loops need not terminate. Against a delete that
fails on every attempt `DeleteMembers` has not returned after any number of
attempts and loop iterations, and likewise `InsertMembers` against an insert that
fails on every attempt: the first wave never completes. -/
theorem wave_loops_blocked_by_failing_worker :
    (∀ deleteFuel fuel : Nat,
      DeleteMembers alwaysNotFound (fun l => l) deleteFuel fuel 0 fiveEmails "staff@x" 2 =
        .outOfFuel) ∧
    (∀ pushFuel fuel : Nat,
      InsertMembers brokenInsert serial pushFuel fuel 0 fiveMembers "staff@x" 2 =
        .outOfFuel) := by
  constructor
  · intro deleteFuel fuel
    cases fuel with
    | zero => rfl
    | succ fuel =>
      have h := DeleteMember_never_succeeds alwaysNotFound "staff@x" "a@x" deleteFuel 0
        (fun _ => ⟨"googleapi: Error 404: Resource Not Found: memberKey", rfl⟩)
      simp [DeleteMembers, DeleteMembersLoop, fiveEmails, deleteWave, h]
  · intro pushFuel fuel
    cases fuel with
    | zero => rfl
    | succ fuel =>
      have h := PushMember_brokenInsert "staff@x" alice pushFuel 0
      simp [InsertMembers, InsertMembersLoop, fiveMembers, insertWave, serial, finishing,
        runSteps, stepGoroutine, h]

/-! ### Product catalog -/

theorem firstBySKUID_no_match (skuID : String) :
    ∀ l : List Product, (∀ p ∈ l, p.SKUID ≠ skuID) → firstBySKUID skuID l = {} := by
  intro l
  induction l with
  | nil => intro _; rfl
  | cons q qs ih =>
    intro h
    have hq : q.SKUID ≠ skuID := h q (by simp)
    simp [firstBySKUID, hq, ih (fun p hp => h p (List.mem_cons_of_mem _ hp))]

theorem firstByName_no_match (skuName : String) :
    ∀ l : List Product, (∀ p ∈ l, p.SKUName ≠ skuName) → firstByName skuName l = {} := by
  intro l
  induction l with
  | nil => intro _; rfl
  | cons q qs ih =>
    intro h
    have hq : q.SKUName ≠ skuName := h q (by simp)
    simp [firstByName, hq, ih (fun p hp => h p (List.mem_cons_of_mem _ hp))]

/-- C12. The catalog `AllProducts` has 14 entries with pairwise distinct SKU ids
and pairwise distinct SKU names; for every entry `p`, `GetProductBySKUID p.SKUID`
and `GetProductByName p.SKUName` give `p` back; and for a string that is the SKU
id (SKU name) of no entry, the lookup gives the zero `Product`. -/
theorem catalog_lookups :
    AllProducts.length = 14 ∧
    (AllProducts.map (fun p => p.SKUID)).Nodup ∧
    (AllProducts.map (fun p => p.SKUName)).Nodup ∧
    (∀ p ∈ AllProducts, GetProductBySKUID p.SKUID = p ∧ GetProductByName p.SKUName = p) ∧
    (∀ skuID : String, (∀ p ∈ AllProducts, p.SKUID ≠ skuID) → GetProductBySKUID skuID = {}) ∧
    (∀ skuName : String, (∀ p ∈ AllProducts, p.SKUName ≠ skuName) →
      GetProductByName skuName = {}) := by
  refine ⟨rfl, by decide, by decide, by decide, ?_, ?_⟩
  · intro skuID h
    exact firstBySKUID_no_match skuID AllProducts h
  · intro skuName h
    exact firstByName_no_match skuName AllProducts h

/-- C12 at the Vault entry and at the empty string. -/
theorem catalog_lookups_witness :
    (GetProductBySKUID "Google-Vault" = GoogleVault ∧
      GetProductByName "Google Vault" = GoogleVault) ∧
    GetProductBySKUID "" = {} ∧
    GetProductByName "" = {} :=
  ⟨catalog_lookups.2.2.2.1 GoogleVault (by decide),
    catalog_lookups.2.2.2.2.1 "" (by decide),
    catalog_lookups.2.2.2.2.2 "" (by decide)⟩

end Workspace3k
